import Mathlib

/-!
Verification development for the analytics and scheduling core of the
Dark Mind video factory (files analytics.py, scheduler.py, run_pipeline.py).
Python integers are modelled as Nat, Python floats as rationals, SQLite
tables as lists of structures, and Python functions that can raise as
Except-valued Lean functions.
-/

namespace DarkMind

/-- One row of the videos table (analytics.py, init_db). -/
structure VideoRec where
  runId : String
  format : String
  topic : String
  hookText : String
  voiceType : String
  suggestedMusic : String
  postHour : Nat
  postDayOfWeek : Nat
  createdAt : ℚ
  outputPath : String
  views : Nat
  likes : Nat
  comments : Nat
  shares : Nat
  watchTimeAvg : ℚ
  engagementRate : ℚ
  pumped : Bool
  youtubeId : String
  tiktokId : String
  youtubeUrl : String
  tiktokUrl : String
  lastStatsFetch : ℚ
deriving DecidableEq, Repr

/-- One row of the hourly_performance table. -/
structure HourlyPerf where
  hour : Nat
  avgViews : ℚ
  avgEngagement : ℚ
  totalVideos : Nat
  lastUpdated : ℚ
deriving DecidableEq, Repr

/-- One row of the format_performance table. -/
structure FormatPerf where
  format : String
  avgViews : ℚ
  avgEngagement : ℚ
  totalVideos : Nat
  bestTopics : List String
  lastUpdated : ℚ
deriving DecidableEq, Repr

/-- The whole sqlite database of analytics.py. -/
structure Store where
  videos : List VideoRec
  hourly : List HourlyPerf
  formats : List FormatPerf
deriving DecidableEq, Repr

/-- The script_data dict fields read by log_video. -/
structure ScriptData where
  format : String
  topic : String
  hookText : String
  voiceType : String
  suggestedMusic : String
deriving DecidableEq, Repr

/-- Minimum views for a video to count as pumped (analytics.py). -/
def PUMP_THRESHOLD : Nat := 10000

/-- Average of a rational-valued field over a list of rows, as SQL AVG. -/
def avgBy (k : α → ℚ) (l : List α) : ℚ := (l.map k).sum / l.length

/-- Keep the first occurrence of each element, dropping later duplicates.
Models both the SQL GROUP BY key set (in first-occurrence order) and the
seen-set deduplication loop of build_daily_schedule. -/
def firstDedupAux [DecidableEq α] (seen : List α) : List α → List α
  | [] => []
  | a :: l => if seen.contains a then firstDedupAux seen l
              else a :: firstDedupAux (a :: seen) l

/-- Deduplication keeping first occurrences. -/
def firstDedup [DecidableEq α] (l : List α) : List α := firstDedupAux [] l

/-- Descending sort by a rational key, modelling SQL ORDER BY key DESC. -/
def sortByDesc (k : α → ℚ) (l : List α) : List α :=
  l.insertionSort fun a b => k b ≤ k a

/-- Ascending sort on naturals, modelling Python sorted(). -/
def sortAsc (l : List Nat) : List Nat :=
  l.insertionSort fun a b => a ≤ b

/-- The engagement formula of update_performance. -/
def engagementFormula (views likes comments shares : Nat) : ℚ :=
  ((likes + comments + shares : Nat) : ℚ) / ((max views 1 : Nat) : ℚ) * 100

/-- The fixed format list used by _recalculate_aggregates. -/
def FORMATS : List String := ["story_lesson", "scary_truth", "hidden_psychology"]

/-- INSERT OR REPLACE into hourly_performance, keyed by hour. -/
def upsertHour (t : List HourlyPerf) (row : HourlyPerf) : List HourlyPerf :=
  if t.any fun a => a.hour == row.hour then
    t.map fun a => if a.hour == row.hour then row else a
  else t ++ [row]

/-- INSERT OR REPLACE into format_performance, keyed by format. -/
def upsertFormat (t : List FormatPerf) (row : FormatPerf) : List FormatPerf :=
  if t.any fun a => a.format == row.format then
    t.map fun a => if a.format == row.format then row else a
  else t ++ [row]

/-- The hourly half of _recalculate_aggregates: for each hour 0..23 with at
least one video having that post hour and views > 0, upsert the averages. -/
def recalcHourly (videos : List VideoRec) (old : List HourlyPerf) (now : ℚ) :
    List HourlyPerf :=
  (List.range 24).foldl (fun t h =>
    let g := videos.filter fun v => v.postHour == h && decide (0 < v.views)
    if 0 < g.length then
      upsertHour t
        { hour := h
          avgViews := avgBy (fun v => (v.views : ℚ)) g
          avgEngagement := avgBy (fun v => v.engagementRate) g
          totalVideos := g.length
          lastUpdated := now }
    else t) old

/-- The format half of _recalculate_aggregates. -/
def recalcFormats (videos : List VideoRec) (old : List FormatPerf) (now : ℚ) :
    List FormatPerf :=
  FORMATS.foldl (fun t f =>
    let g := videos.filter fun v => v.format == f && decide (0 < v.views)
    let topics :=
      ((sortByDesc (fun v => (v.views : ℚ))
          (videos.filter fun v => v.format == f && v.pumped)).take 10).map
        fun v => v.topic
    if 0 < g.length then
      upsertFormat t
        { format := f
          avgViews := avgBy (fun v => (v.views : ℚ)) g
          avgEngagement := avgBy (fun v => v.engagementRate) g
          totalVideos := g.length
          bestTopics := topics
          lastUpdated := now }
    else t) old

/-- analytics.update_performance: write the metrics, the recomputed
engagement rate and pumped flag into every row matching the run id, then
recompute the aggregate tables. -/
def updatePerformance (st : Store) (runId : String)
    (views likes comments shares : Nat) (watchTimeAvg now : ℚ) : Store :=
  let engagement := engagementFormula views likes comments shares
  let pumped := decide (PUMP_THRESHOLD ≤ views)
  let videos := st.videos.map fun r =>
    if r.runId == runId then
      { r with views := views, likes := likes, comments := comments,
               shares := shares, watchTimeAvg := watchTimeAvg,
               engagementRate := engagement, pumped := pumped }
    else r
  { videos := videos
    hourly := recalcHourly videos st.hourly now
    formats := recalcFormats videos st.formats now }

/-- analytics.log_video: INSERT OR IGNORE of a fresh record; run_id is the
UNIQUE key, so nothing happens when a row with this run id already exists. -/
def logVideo (videos : List VideoRec) (runId : String) (sd : ScriptData)
    (outputPath : String) (nowHour nowWeekday : Nat) (nowTime : ℚ) :
    List VideoRec :=
  if videos.any fun r => r.runId == runId then videos
  else videos ++
    [{ runId := runId
       format := sd.format
       topic := sd.topic
       hookText := sd.hookText
       voiceType := sd.voiceType
       suggestedMusic := sd.suggestedMusic
       postHour := nowHour
       postDayOfWeek := nowWeekday
       createdAt := nowTime
       outputPath := outputPath
       views := 0, likes := 0, comments := 0, shares := 0
       watchTimeAvg := 0, engagementRate := 0, pumped := false
       youtubeId := "", tiktokId := "", youtubeUrl := "", tiktokUrl := ""
       lastStatsFetch := 0 }]

/-- analytics.save_platform_ids: every row matching the run id gets all four
platform columns written; a missing or empty identifier is stored as the
empty string and yields an empty URL. -/
def savePlatformIds (videos : List VideoRec) (runId : String)
    (youtubeId tiktokId : Option String) : List VideoRec :=
  let ytId := youtubeId.getD ""
  let ttId := tiktokId.getD ""
  let ytUrl := if ytId ≠ "" then "https://youtube.com/shorts/" ++ ytId else ""
  let ttUrl := if ttId ≠ "" then "https://www.tiktok.com/@/video/" ++ ttId else ""
  videos.map fun r =>
    if r.runId == runId then
      { r with youtubeId := ytId, tiktokId := ttId,
               youtubeUrl := ytUrl, tiktokUrl := ttUrl }
    else r

/-- Result shape of analytics.get_hour_confidence. -/
structure Confidence where
  dayVideos : Nat
  anyVideos : Nat
  dataDriven : Bool
  tier : String
deriving DecidableEq, Repr

/-- analytics.get_hour_confidence. -/
def getHourConfidence (videos : List VideoRec) (dayOfWeek : Nat) : Confidence :=
  let dayCount :=
    (videos.filter fun v => v.postDayOfWeek == dayOfWeek && decide (0 < v.views)).length
  let anyCount := (videos.filter fun v => decide (0 < v.views)).length
  let tier : String :=
    if 4 ≤ dayCount then "day-specific"
    else if 6 ≤ anyCount then "cross-day"
    else "psychology"
  { dayVideos := dayCount
    anyVideos := anyCount
    dataDriven := tier != "psychology"
    tier := tier }

/-- Dict shape returned by analytics.get_viral_candidates. -/
structure Candidate where
  runId : String
  topic : String
  format : String
  views : Nat
  hookText : String
deriving DecidableEq, Repr

/-- Projection of a video row onto the candidate dict. -/
def toCandidate (r : VideoRec) : Candidate :=
  { runId := r.runId, topic := r.topic, format := r.format,
    views := r.views, hookText := r.hookText }

/-- analytics.get_viral_candidates: pumped rows with a topic, ordered by
views descending, kept only when no other row shares the topic with a
strictly later creation time. -/
def getViralCandidates (videos : List VideoRec) : List Candidate :=
  let pumpedRows := sortByDesc (fun r => (r.views : ℚ))
    (videos.filter fun r => r.pumped && r.topic != "")
  (pumpedRows.filter fun r =>
    (videos.countP fun s =>
      s.topic == r.topic && decide (r.createdAt < s.createdAt) &&
        s.runId != r.runId) == 0).map toCandidate

/-- The weekday rows with measured views, the WHERE clause shared by both
tier-1 queries of get_best_hours_for_day. -/
def dayRows (videos : List VideoRec) (dayOfWeek : Nat) : List VideoRec :=
  videos.filter fun v => v.postDayOfWeek == dayOfWeek && decide (0 < v.views)

/-- The GROUP BY post_hour group of one hour. -/
def hourGroup (rows : List VideoRec) (h : Nat) : List VideoRec :=
  rows.filter fun v => v.postHour == h

/-- AVG(engagement_rate) of one hour group. -/
def hourAvgEng (rows : List VideoRec) (h : Nat) : ℚ :=
  avgBy (fun v => v.engagementRate) (hourGroup rows h)

/-- analytics.get_best_hours_for_day, translated from its two SQL queries.
Tier 1 groups the weekday rows having views > 0 by post hour into SQL rows
(hour, AVG(engagement_rate), COUNT), keeps groups of size at least 2,
orders by average engagement descending and takes n. When that is empty,
tier 2 reads the hourly_performance table rows with at least 3 videos,
ordered by average engagement descending, taking n. Otherwise empty. -/
def getBestHoursForDay (videos : List VideoRec) (hourly : List HourlyPerf)
    (dayOfWeek n : Nat) : List Nat :=
  let rows := dayRows videos dayOfWeek
  let hours := firstDedup (rows.map fun v => v.postHour)
  let sqlRows : List (Nat × ℚ × Nat) := hours.map fun h =>
    (h, hourAvgEng rows h, (hourGroup rows h).length)
  let tier1 := (sortByDesc (fun r => r.2.1)
    (sqlRows.filter fun r => decide (2 ≤ r.2.2))).take n
  if tier1 ≠ [] then tier1.map fun r => r.1
  else
    let tier2 := (sortByDesc (fun a => a.avgEngagement)
      (hourly.filter fun a => decide (3 ≤ a.totalVideos))).take n
    if tier2 ≠ [] then tier2.map fun a => a.hour else []

/-- scheduler.ACTIVE_HOURS_START. -/
def ACTIVE_HOURS_START : Nat := 6

/-- scheduler.ACTIVE_HOURS_END. -/
def ACTIVE_HOURS_END : Nat := 23

/-- scheduler.PEAK_HOURS lookup with its dict-get default. -/
def PEAK_HOURS (weekday : Nat) : List Nat :=
  match weekday with
  | 0 => [7, 8, 12, 19, 20]
  | 1 => [7, 8, 12, 19, 20, 21]
  | 2 => [7, 8, 12, 19, 20, 21]
  | 3 => [7, 8, 12, 19, 20]
  | 4 => [7, 8, 12, 19]
  | 5 => [10, 11, 12, 14, 20]
  | 6 => [11, 12, 14, 19]
  | _ => [7, 8, 12, 19, 20]

/-- scheduler.build_daily_schedule with the learned hours and the random
minute source injected: merge learned hours with the psychology peaks
keeping first occurrences, keep hours inside the active window, sort them
ascending, take the daily cap, and pair each kept hour with its drawn
minute. randint(5, 55) is modelled by the injected source rand. -/
def buildDailySchedule (learned : List Nat) (weekday maxVids : Nat)
    (rand : Nat → Nat) : List (Nat × Nat) :=
  let psych := PEAK_HOURS weekday
  let combined := firstDedup (learned ++ psych)
  let active := sortAsc (combined.filter fun h =>
    decide (ACTIVE_HOURS_START ≤ h) && decide (h < ACTIVE_HOURS_END))
  let chosenHours := active.take maxVids
  chosenHours.map fun h => (h, rand h)

/-- The human-readable reasons returned by scheduler.should_run_now. -/
inductive Reason where
  | outsideActive : Reason
  | alreadyRanThisHour : Reason
  | dailyCapReached (count maxVids : Nat) : Reason
  | notScheduledSlot (next : Option (Nat × Nat)) : Reason
  | waitingForMinute (target nowMinute : Nat) : Reason
  | ok : Reason
deriving DecidableEq, Repr

/-- scheduler.should_run_now as a pure function of the clock and the
scheduler state: the in-memory last-run hour (-1 when none), the daily
count as returned by get_daily_count, the configured cap, and the cached
jittered schedule. The checks fire in source order. -/
def shouldRunNow (nowHour nowMinute : Nat) (lastRunHour : Int)
    (count maxVids : Nat) (schedule : List (Nat × Nat)) : Bool × Reason :=
  if ACTIVE_HOURS_START ≤ nowHour ∧ nowHour < ACTIVE_HOURS_END then
    if (nowHour : Int) = lastRunHour then (false, .alreadyRanThisHour)
    else if maxVids ≤ count then (false, .dailyCapReached count maxVids)
    else
      match schedule.find? fun p => p.1 == nowHour with
      | none =>
        (false, .notScheduledSlot (schedule.filter fun p => nowHour < p.1).head?)
      | some slot =>
        if nowMinute < slot.2 then (false, .waitingForMinute slot.2 nowMinute)
        else (true, .ok)
  else (false, .outsideActive)

/-- run_pipeline._STOP, the stop-word set. -/
def STOP_WORDS : List String :=
  ["the", "a", "an", "of", "in", "to", "how", "why", "what", "is", "are",
   "was", "were", "be", "been", "i", "you", "we", "they", "it", "this",
   "that", "for", "on", "at", "by", "with", "from", "and", "or", "but",
   "do", "does", "did", "have", "has", "had", "not", "no", "so", "if",
   "as", "can", "will", "just", "about", "into", "its", "s", "your"]

/-- The regex cleanup of _topic_words: lowercase, then drop every character
that is not a lowercase letter, a digit or a space. -/
def cleanTopic (t : String) : List Char :=
  (t.toList.map Char.toLower).filter fun c =>
    decide (('a' ≤ c ∧ c ≤ 'z') ∨ ('0' ≤ c ∧ c ≤ '9') ∨ c = ' ')

/-- Python str.split with no separator over the cleaned characters: cut at
spaces and never emit an empty word. -/
def splitWordsAux (cur : List Char) : List Char → List String
  | [] => if cur.isEmpty then [] else [String.mk cur.reverse]
  | c :: cs =>
    if c = ' ' then
      if cur.isEmpty then splitWordsAux [] cs
      else String.mk cur.reverse :: splitWordsAux [] cs
    else splitWordsAux (c :: cur) cs

/-- Python str.split with no separator argument. -/
def splitWords (l : List Char) : List String := splitWordsAux [] l

/-- run_pipeline._topic_words: the set of meaningful words of a topic,
modelled as a duplicate-free list. -/
def topicWords (t : String) : List String :=
  firstDedup ((splitWords (cleanTopic t)).filter fun w =>
    !(STOP_WORDS.contains w))

/-- Size of the intersection of two word sets, the first duplicate-free. -/
def wordOverlap (a b : List String) : Nat :=
  (a.filter fun w => b.contains w).length

/-- run_pipeline._topic_is_fresh. The source first builds
a Python set whose elements are the word sets of the pumped topics; word
sets are sets, which are unhashable, so that comprehension raises TypeError
as soon as the pumped list is non-empty. With an empty pumped list the
comprehension yields the empty set, the skip test of the loop never fires,
and the candidate is fresh exactly when it overlaps no used topic in 3 or
more meaningful words. -/
def topicIsFresh (candidate : String) (used pumped : List String) :
    Except String Bool :=
  if pumped ≠ [] then .error "TypeError: unhashable type: set"
  else
    let pumpedSet : List (List String) := []
    let candWords := topicWords candidate
    .ok (used.all fun u =>
      let usedWords := topicWords u
      if pumpedSet.contains usedWords then true
      else wordOverlap candWords usedWords < 3)

/-- Spec wording of the tiered best-hours algorithm: keep the weekday hours
with at least two sampled videos, ranked by average engagement descending,
up to n; else the aggregate-table hours with at least three samples, ranked
by average engagement descending, up to n; else none. -/
def bestHoursSpec (videos : List VideoRec) (hourly : List HourlyPerf)
    (dayOfWeek n : Nat) : List Nat :=
  let rows := dayRows videos dayOfWeek
  let qualHours := (firstDedup (rows.map fun v => v.postHour)).filter fun h =>
    decide (2 ≤ (hourGroup rows h).length)
  if qualHours ≠ [] then
    (sortByDesc (hourAvgEng rows) qualHours).take n
  else
    let qualRows := hourly.filter fun a => decide (3 ≤ a.totalVideos)
    if qualRows ≠ [] then
      (((sortByDesc (fun a => a.avgEngagement) qualRows).map fun a => a.hour).take n)
    else []

/-- The daily schedule as the claim words it: the deduplicated merge of
learned hours and prior-table hours, restricted to the active window,
truncated to the first maxVids hours of that merged order (without any
re-sorting), each paired with its drawn minute. -/
def claimedScheduleSpec (learned : List Nat) (weekday maxVids : Nat)
    (rand : Nat → Nat) : List (Nat × Nat) :=
  (((firstDedup (learned ++ PEAK_HOURS weekday)).filter fun h =>
    decide (ACTIVE_HOURS_START ≤ h) && decide (h < ACTIVE_HOURS_END)).take
      maxVids).map fun h => (h, rand h)

/-- The daily schedule as the amended claim words it: same merge and window
restriction, then sorted ascending before truncating to the cap. -/
def amendedScheduleSpec (learned : List Nat) (weekday maxVids : Nat)
    (rand : Nat → Nat) : List (Nat × Nat) :=
  ((sortAsc ((firstDedup (learned ++ PEAK_HOURS weekday)).filter fun h =>
    decide (ACTIVE_HOURS_START ≤ h) && decide (h < ACTIVE_HOURS_END))).map
      fun h => (h, rand h)).take maxVids

/-- A concrete video record used to instantiate hypotheses of theorems. -/
def sampleRec : VideoRec :=
  { runId := "run1", format := "story_lesson", topic := "alpha beta",
    hookText := "", voiceType := "", suggestedMusic := "", postHour := 19,
    postDayOfWeek := 1, createdAt := 100, outputPath := "", views := 0,
    likes := 0, comments := 0, shares := 0, watchTimeAvg := 0,
    engagementRate := 0, pumped := false, youtubeId := "", tiktokId := "",
    youtubeUrl := "", tiktokUrl := "", lastStatsFetch := 0 }

/-- A concrete record carrying TikTok identifiers. -/
def tiktokRec : VideoRec :=
  { sampleRec with
    runId := "vid1", tiktokId := "tt123",
    tiktokUrl := "https://www.tiktok.com/@/video/tt123" }

/-- A concrete script dict used to instantiate hypotheses of theorems. -/
def sampleScript : ScriptData :=
  { format := "story_lesson", topic := "alpha beta gamma delta",
    hookText := "hook", voiceType := "calm", suggestedMusic := "dark" }

/-- Permutation property of the descending key sort. -/
theorem sortByDesc_perm (k : α → ℚ) (l : List α) :
    List.Perm (sortByDesc k l) l :=
  List.perm_insertionSort _ l

/-- Membership is preserved by the descending key sort. -/
theorem mem_sortByDesc {k : α → ℚ} {l : List α} {a : α} :
    a ∈ sortByDesc k l ↔ a ∈ l :=
  List.mem_insertionSort _

/-- The descending key sort is sorted by nonincreasing key. -/
theorem sortByDesc_sorted (k : α → ℚ) (l : List α) :
    (sortByDesc k l).Sorted fun a b => k b ≤ k a := by
  haveI : IsTotal α fun a b => k b ≤ k a := ⟨fun a b => le_total (k b) (k a)⟩
  haveI : IsTrans α fun a b => k b ≤ k a :=
    ⟨fun _ _ _ h1 h2 => le_trans h2 h1⟩
  exact List.sorted_insertionSort _ l

/-- Sorting a mapped list by a key is mapping the sort by the pulled-back
key, since the comparisons agree pointwise. -/
theorem sortByDesc_map (k : α → ℚ) (f : β → α) (l : List β) :
    sortByDesc k (l.map f) = (sortByDesc (fun b => k (f b)) l).map f :=
  (List.map_insertionSort (fun a b => k (f b) ≤ k (f a))
    (fun a b => k b ≤ k a) f l fun _ _ _ _ => Iff.rfl).symm

example : topicWords "Trader lost it all in 2021" = ["trader", "lost", "all", "2021"] := by decide

example : wordOverlap (topicWords "Trader lost it all in 2021")
    (topicWords "Trader lost everything in 2021") = 3 := by decide

/-- C2: on the first spec example (used topic not pumped) the freshness
filter rejects the candidate as the claim demands, but on the second spec
example (the same used topic flagged as pumped) the source raises a
TypeError while building the set of pumped word sets, instead of accepting
the candidate: Python sets are unhashable, so the claimed pumped-topic
exemption is unreachable whenever the pumped list is non-empty. -/
theorem topicIsFresh_crashes_on_pumped :
    topicIsFresh "Trader lost it all in 2021"
      ["Trader lost everything in 2021"] [] = Except.ok false ∧
    topicIsFresh "Trader lost everything in 2021 part 2"
      ["Trader lost everything in 2021"] ["Trader lost everything in 2021"] =
      Except.error "TypeError: unhashable type: set" := by
  exact ⟨rfl, rfl⟩

/-- C4 counterexample: with the daily cap already reached (2 of 2) but the
clock at 03:00, should_run_now returns false with the outside-active-hours
reason, not the cap-reached reason the claim requires regardless of hour. -/
theorem shouldRunNow_cap_counterexample :
    shouldRunNow 3 0 (-1) 2 2 [] = (false, Reason.outsideActive) ∧
    Reason.outsideActive ≠ Reason.dailyCapReached 2 2 := by
  exact ⟨by decide, by decide⟩

/-- C4 amended: whenever the daily count has reached the cap, should_run_now
returns false regardless of the current hour, of the last-run hour and of
the built schedule; and the returned reason is the cap-reached one whenever
the current hour additionally lies in the active window and differs from
the last-run hour, again regardless of the built schedule. -/
theorem shouldRunNow_cap_reached (nowHour nowMinute : Nat) (lastRunHour : Int)
    (count maxVids : Nat) (schedule : List (Nat × Nat))
    (hcap : maxVids ≤ count) :
    (shouldRunNow nowHour nowMinute lastRunHour count maxVids schedule).1 =
      false ∧
    (ACTIVE_HOURS_START ≤ nowHour ∧ nowHour < ACTIVE_HOURS_END →
      (nowHour : Int) ≠ lastRunHour →
      shouldRunNow nowHour nowMinute lastRunHour count maxVids schedule =
        (false, Reason.dailyCapReached count maxVids)) := by
  constructor
  · by_cases hact : ACTIVE_HOURS_START ≤ nowHour ∧ nowHour < ACTIVE_HOURS_END
    · by_cases hlast : (nowHour : Int) = lastRunHour
      · simp [shouldRunNow, hact, hlast]
      · simp [shouldRunNow, hact, hlast, hcap]
    · simp [shouldRunNow, hact]
  · intro hact hlast
    unfold shouldRunNow
    rw [if_pos hact, if_neg hlast, if_pos hcap]

/-- C4 witness: a concrete cap-reached call inside the active window, with
every hypothesis of the amended theorem discharged. -/
theorem shouldRunNow_cap_reached_witness :
    (shouldRunNow 7 0 (-1) 2 2 []).1 = false ∧
    shouldRunNow 7 0 (-1) 2 2 [] = (false, Reason.dailyCapReached 2 2) :=
  ⟨(shouldRunNow_cap_reached 7 0 (-1) 2 2 [] (by decide)).1,
   (shouldRunNow_cap_reached 7 0 (-1) 2 2 [] (by decide)).2
     (by decide) (by decide)⟩

/-- C9 counterexample: a record holding TikTok identifiers loses them when
save_platform_ids is called with only a YouTube id, contradicting the
claimed merge behaviour. -/
theorem savePlatformIds_counterexample :
    (savePlatformIds [tiktokRec] "vid1" (some "yt999") none).map
      (fun r => r.tiktokId) = [""] ∧ tiktokRec.tiktokId = "tt123" := by
  exact ⟨by decide, by decide⟩

/-- C9 amended: save_platform_ids overwrites all four platform columns of
every matching record; an identifier that is not supplied is stored as the
empty string with an empty URL, it is not preserved from the record. -/
theorem savePlatformIds_single_platform (videos : List VideoRec)
    (runId yt tt : String) :
    savePlatformIds videos runId (some yt) none =
      videos.map (fun r =>
        if r.runId = runId then
          { r with
            youtubeId := yt, tiktokId := "",
            youtubeUrl :=
              if yt ≠ "" then "https://youtube.com/shorts/" ++ yt else "",
            tiktokUrl := "" }
        else r) ∧
    savePlatformIds videos runId none (some tt) =
      videos.map (fun r =>
        if r.runId = runId then
          { r with
            youtubeId := "", tiktokId := tt,
            youtubeUrl := "",
            tiktokUrl :=
              if tt ≠ "" then "https://www.tiktok.com/@/video/" ++ tt else "" }
        else r) := by
  constructor <;>
  · simp only [savePlatformIds, Option.getD]
    apply List.map_congr_left
    intro r _
    by_cases h : r.runId = runId <;> simp [h]

/-- Helper for C10: mapping a conditional update whose condition matches no
element of the list is the identity. -/
theorem map_if_no_match (l : List VideoRec) (runId : String)
    (f : VideoRec → VideoRec) (h : ∀ r ∈ l, r.runId ≠ runId) :
    (l.map fun r => if r.runId == runId then f r else r) = l := by
  induction l with
  | nil => rfl
  | cons a l ih =>
    have ha : ¬(a.runId == runId) = true := by
      simp [h a (List.mem_cons_self a l)]
    simp only [List.map_cons, if_neg ha]
    rw [ih fun r hr => h r (List.mem_cons_of_mem a hr)]

/-- C10: update_performance with an unknown run id raises nothing, changes
no video record, and still recomputes both aggregate tables from the
unchanged base table. -/
theorem updatePerformance_no_match (st : Store) (runId : String)
    (views likes comments shares : Nat) (watchTimeAvg now : ℚ)
    (h : ∀ r ∈ st.videos, r.runId ≠ runId) :
    (updatePerformance st runId views likes comments shares watchTimeAvg
      now).videos = st.videos ∧
    (updatePerformance st runId views likes comments shares watchTimeAvg
      now).hourly = recalcHourly st.videos st.hourly now ∧
    (updatePerformance st runId views likes comments shares watchTimeAvg
      now).formats = recalcFormats st.videos st.formats now := by
  have hm := map_if_no_match st.videos runId
    (fun r =>
      { r with
        views := views, likes := likes, comments := comments,
        shares := shares, watchTimeAvg := watchTimeAvg,
        engagementRate := engagementFormula views likes comments shares,
        pumped := decide (PUMP_THRESHOLD ≤ views) }) h
  simp only [updatePerformance]
  rw [hm]
  exact ⟨rfl, rfl, rfl⟩

/-- C10 witness: a concrete call on an empty store. -/
theorem updatePerformance_no_match_witness :
    (updatePerformance { videos := [], hourly := [], formats := [] } "ghost"
      5 1 1 1 0 0).videos = [] ∧
    (updatePerformance { videos := [], hourly := [], formats := [] } "ghost"
      5 1 1 1 0 0).hourly = recalcHourly [] [] 0 ∧
    (updatePerformance { videos := [], hourly := [], formats := [] } "ghost"
      5 1 1 1 0 0).formats = recalcFormats [] [] 0 :=
  updatePerformance_no_match ⟨[], [], []⟩ "ghost" 5 1 1 1 0 0 (by simp)

/-- C3: immediately after update_performance for an existing run id, every
matching record carries engagement rate
(likes+comments+shares)/max(views,1)*100 and is pumped exactly when views
reach 10000, for all non-negative counts including views = 0. -/
theorem updatePerformance_metrics (st : Store) (runId : String)
    (views likes comments shares : Nat) (watchTimeAvg now : ℚ)
    (hex : ∃ r ∈ st.videos, r.runId = runId) :
    (∃ r ∈ (updatePerformance st runId views likes comments shares
      watchTimeAvg now).videos, r.runId = runId) ∧
    ∀ r ∈ (updatePerformance st runId views likes comments shares
      watchTimeAvg now).videos, r.runId = runId →
        r.engagementRate =
          ((likes + comments + shares : Nat) : ℚ) /
            ((max views 1 : Nat) : ℚ) * 100 ∧
        (r.pumped = true ↔ 10000 ≤ views) := by
  obtain ⟨r0, hr0, hid⟩ := hex
  constructor
  · simp only [updatePerformance]
    refine ⟨_, List.mem_map_of_mem _ hr0, ?_⟩
    simp [hid]
  · intro r hr hrid
    simp only [updatePerformance, List.mem_map] at hr
    obtain ⟨a, ha, rfl⟩ := hr
    by_cases hcase : a.runId = runId
    · simp only [hcase, beq_self_eq_true, if_true]
      refine ⟨rfl, ?_⟩
      simp [PUMP_THRESHOLD]
    · exfalso
      rw [if_neg (by simp [hcase])] at hrid
      exact hcase hrid

/-- A one-record store used to instantiate hypotheses of theorems. -/
def sampleStore : Store := { videos := [sampleRec], hourly := [], formats := [] }

/-- C3 witness: one record updated to 12000 views with 100 likes. -/
theorem updatePerformance_metrics_witness :
    (∃ r ∈ (updatePerformance sampleStore "run1" 12000 100 0 0 0 0).videos,
      r.runId = "run1") ∧
    ∀ r ∈ (updatePerformance sampleStore "run1" 12000 100 0 0 0 0).videos,
      r.runId = "run1" →
        r.engagementRate =
          ((100 + 0 + 0 : Nat) : ℚ) / ((max 12000 1 : Nat) : ℚ) * 100 ∧
        (r.pumped = true ↔ 10000 ≤ 12000) :=
  updatePerformance_metrics sampleStore "run1" 12000 100 0 0 0 0
    ⟨sampleRec, by simp [sampleStore], by decide⟩

/-- C7: get_hour_confidence reports as day and total counts the numbers of
same-weekday and of all videos with measured views, and its tier is
day-specific exactly when the day count reaches 4, cross-day exactly when
the day count is below 4 but the total reaches 6, and psychology exactly
when neither threshold is met. -/
theorem getHourConfidence_spec (videos : List VideoRec) (d : Nat) :
    (getHourConfidence videos d).dayVideos =
      (videos.filter fun v =>
        v.postDayOfWeek == d && decide (0 < v.views)).length ∧
    (getHourConfidence videos d).anyVideos =
      (videos.filter fun v => decide (0 < v.views)).length ∧
    ((getHourConfidence videos d).tier = "day-specific" ↔
      4 ≤ (videos.filter fun v =>
        v.postDayOfWeek == d && decide (0 < v.views)).length) ∧
    ((getHourConfidence videos d).tier = "cross-day" ↔
      (videos.filter fun v =>
        v.postDayOfWeek == d && decide (0 < v.views)).length < 4 ∧
      6 ≤ (videos.filter fun v => decide (0 < v.views)).length) ∧
    ((getHourConfidence videos d).tier = "psychology" ↔
      (videos.filter fun v =>
        v.postDayOfWeek == d && decide (0 < v.views)).length < 4 ∧
      (videos.filter fun v => decide (0 < v.views)).length < 6) := by
  refine ⟨rfl, rfl, ?_, ?_, ?_⟩
  · simp only [getHourConfidence]
    split
    case isTrue h4 => exact ⟨fun _ => h4, fun _ => rfl⟩
    case isFalse h4 =>
      split
      case isTrue h6 =>
        exact ⟨fun h => absurd h (by decide), fun h => absurd h4 (by omega)⟩
      case isFalse h6 =>
        exact ⟨fun h => absurd h (by decide), fun h => absurd h4 (by omega)⟩
  · simp only [getHourConfidence]
    split
    case isTrue h4 =>
      exact ⟨fun h => absurd h (by decide), fun h => absurd h4 (by omega)⟩
    case isFalse h4 =>
      split
      case isTrue h6 => exact ⟨fun _ => ⟨by omega, h6⟩, fun _ => rfl⟩
      case isFalse h6 =>
        exact ⟨fun h => absurd h (by decide), fun h => absurd h6 (by omega)⟩
  · simp only [getHourConfidence]
    split
    case isTrue h4 =>
      exact ⟨fun h => absurd h (by decide), fun h => absurd h4 (by omega)⟩
    case isFalse h4 =>
      split
      case isTrue h6 =>
        exact ⟨fun h => absurd h (by decide), fun h => absurd h6 (by omega)⟩
      case isFalse h6 => exact ⟨fun _ => ⟨by omega, by omega⟩, fun _ => rfl⟩

/-- C8: a second log_video call with the same run id returns the store of
the first call unchanged, and when the store respected the uniqueness of
the run id beforehand, exactly one record with that run id remains. -/
theorem logVideo_idem (videos : List VideoRec) (runId : String)
    (sd1 sd2 : ScriptData) (p1 p2 : String) (h1 w1 h2 w2 : Nat) (t1 t2 : ℚ)
    (huniq : (videos.filter fun r => r.runId == runId).length ≤ 1) :
    logVideo (logVideo videos runId sd1 p1 h1 w1 t1) runId sd2 p2 h2 w2 t2 =
      logVideo videos runId sd1 p1 h1 w1 t1 ∧
    ((logVideo videos runId sd1 p1 h1 w1 t1).filter
      fun r => r.runId == runId).length = 1 := by
  by_cases hany : videos.any fun r => r.runId == runId
  · have e1 : logVideo videos runId sd1 p1 h1 w1 t1 = videos := by
      simp only [logVideo, if_pos hany]
    rw [e1]
    refine ⟨by simp only [logVideo, if_pos hany], ?_⟩
    obtain ⟨r, hr, hb⟩ := List.any_eq_true.mp hany
    have hmem : r ∈ videos.filter fun r => r.runId == runId :=
      List.mem_filter.mpr ⟨hr, hb⟩
    have hpos : 0 < (videos.filter fun r => r.runId == runId).length :=
      List.length_pos.mpr (List.ne_nil_of_mem hmem)
    omega
  · have e1 : logVideo videos runId sd1 p1 h1 w1 t1 = videos ++
        [{ runId := runId, format := sd1.format, topic := sd1.topic,
           hookText := sd1.hookText, voiceType := sd1.voiceType,
           suggestedMusic := sd1.suggestedMusic, postHour := h1,
           postDayOfWeek := w1, createdAt := t1, outputPath := p1,
           views := 0, likes := 0, comments := 0, shares := 0,
           watchTimeAvg := 0, engagementRate := 0, pumped := false,
           youtubeId := "", tiktokId := "", youtubeUrl := "",
           tiktokUrl := "", lastStatsFetch := 0 }] := by
      simp only [logVideo, if_neg hany]
    have hnone : ∀ r ∈ videos, ¬(r.runId == runId) = true := by
      intro r hr hb
      exact hany (List.any_eq_true.mpr ⟨r, hr, hb⟩)
    constructor
    · rw [e1]
      simp only [logVideo]
      rw [if_pos]
      simp
    · rw [e1, List.filter_append, List.filter_eq_nil_iff.mpr hnone]
      simp

/-- C8 witness: two identical log_video calls on an empty store. -/
theorem logVideo_idem_witness :
    logVideo (logVideo [] "run1" sampleScript "out.mp4" 19 1 100) "run1"
      sampleScript "out.mp4" 20 2 200 =
      logVideo [] "run1" sampleScript "out.mp4" 19 1 100 ∧
    ((logVideo [] "run1" sampleScript "out.mp4" 19 1 100).filter
      fun r => r.runId == "run1").length = 1 :=
  logVideo_idem [] "run1" sampleScript sampleScript "out.mp4" "out.mp4"
    19 1 20 2 100 200 (by decide)

/-- C5 counterexample: with learned hours [22, 20] on a Monday and a cap of
2, the schedule keeps the two smallest in-window hours (07 and 08) after
re-sorting, not the first two hours [22, 20] of the merged order as the
claim states. -/
theorem buildDailySchedule_counterexample :
    buildDailySchedule [22, 20] 0 2 (fun _ => 10) ≠
      claimedScheduleSpec [22, 20] 0 2 (fun _ => 10) := by decide

/-- C5 amended: the schedule is the merge of learned hours first and prior
hours, deduplicated in merged order, restricted to the active window, then
sorted in ascending hour order, truncated to the first maxVids hours of
that ascending order, each hour paired with its drawn minute; every slot
lies in the active window with minute between 5 and 55, and the number of
slots never exceeds the cap. -/
theorem buildDailySchedule_amended (learned : List Nat)
    (weekday maxVids : Nat) (rand : Nat → Nat)
    (hrand : ∀ h, 5 ≤ rand h ∧ rand h ≤ 55) :
    buildDailySchedule learned weekday maxVids rand =
      amendedScheduleSpec learned weekday maxVids rand ∧
    (∀ p ∈ buildDailySchedule learned weekday maxVids rand,
      (ACTIVE_HOURS_START ≤ p.1 ∧ p.1 < ACTIVE_HOURS_END) ∧
      5 ≤ p.2 ∧ p.2 ≤ 55) ∧
    (buildDailySchedule learned weekday maxVids rand).length ≤ maxVids := by
  refine ⟨?_, ?_, ?_⟩
  · simp only [buildDailySchedule, amendedScheduleSpec, List.map_take]
  · intro p hp
    simp only [buildDailySchedule, List.mem_map] at hp
    obtain ⟨h, hh, rfl⟩ := hp
    have hh2 : h ∈ sortAsc ((firstDedup (learned ++ PEAK_HOURS weekday)).filter
        fun h => decide (ACTIVE_HOURS_START ≤ h) && decide (h < ACTIVE_HOURS_END)) :=
      List.mem_of_mem_take hh
    rw [sortAsc, List.mem_insertionSort, List.mem_filter] at hh2
    have hwin := hh2.2
    simp only [Bool.and_eq_true, decide_eq_true_eq] at hwin
    exact ⟨hwin, hrand h⟩
  · simp only [buildDailySchedule, List.length_map, List.length_take]
    omega

/-- C5 witness: the amended statement at the counterexample input. -/
theorem buildDailySchedule_amended_witness :
    buildDailySchedule [22, 20] 0 2 (fun _ => 10) =
      amendedScheduleSpec [22, 20] 0 2 (fun _ => 10) ∧
    (∀ p ∈ buildDailySchedule [22, 20] 0 2 (fun _ => 10),
      (ACTIVE_HOURS_START ≤ p.1 ∧ p.1 < ACTIVE_HOURS_END) ∧
      5 ≤ p.2 ∧ p.2 ≤ 55) ∧
    (buildDailySchedule [22, 20] 0 2 (fun _ => 10)).length ≤ 2 :=
  buildDailySchedule_amended [22, 20] 0 2 (fun _ => 10) (fun _ => by simp)

/-- C6: the viral candidates are exactly the projections of the pumped,
topic-bearing records having no other record with the same topic and a
strictly later creation time, and they are listed by views descending. -/
theorem getViralCandidates_spec (videos : List VideoRec) (c : Candidate) :
    (c ∈ getViralCandidates videos ↔
      ∃ r ∈ videos, r.pumped = true ∧ r.topic ≠ "" ∧
        (∀ s ∈ videos, s.topic = r.topic → s.runId ≠ r.runId →
          ¬ r.createdAt < s.createdAt) ∧
        toCandidate r = c) ∧
    (getViralCandidates videos).Sorted fun a b => b.views ≤ a.views := by
  constructor
  · simp only [getViralCandidates, List.mem_map, List.mem_filter,
      mem_sortByDesc, Bool.and_eq_true, beq_iff_eq, bne_iff_ne,
      decide_eq_true_eq, List.countP_eq_zero]
    constructor
    · rintro ⟨r, ⟨⟨⟨hmem, hp, ht⟩, hcount⟩, rfl⟩⟩
      refine ⟨r, hmem, hp, ht, ?_, rfl⟩
      intro s hs hst hsid hlt
      exact hcount s hs ⟨⟨hst, hlt⟩, hsid⟩
    · rintro ⟨r, hmem, hp, ht, hnof, rfl⟩
      refine ⟨r, ⟨⟨⟨hmem, hp, ht⟩, ?_⟩, rfl⟩⟩
      rintro s hs ⟨⟨hst, hlt⟩, hsid⟩
      exact hnof s hs hst hsid hlt
  · have h1 := sortByDesc_sorted (fun r : VideoRec => (r.views : ℚ))
      (videos.filter fun r => r.pumped && r.topic != "")
    have h2 := h1.filter fun r =>
      (videos.countP fun s =>
        s.topic == r.topic && decide (r.createdAt < s.createdAt) &&
          s.runId != r.runId) == 0
    exact List.Pairwise.map toCandidate
      (fun a b hab => Nat.cast_le.mp hab) h2

/-- A key sort yields the empty list only from the empty list. -/
theorem sortByDesc_eq_nil_iff {k : α → ℚ} {l : List α} :
    sortByDesc k l = [] ↔ l = [] := by
  constructor <;> intro h
  · have hl := List.length_insertionSort (fun a b => k b ≤ k a) l
    rw [sortByDesc] at h
    rw [h] at hl
    exact (List.length_eq_zero.mp hl.symm)
  · rw [h]; rfl

/-- C1: get_best_hours_for_day computes exactly the tiered selection the
spec describes: the up-to-n weekday hours with at least 2 measured samples
ranked by average engagement descending when any qualify, else the up-to-n
aggregate-table hours with at least 3 total samples ranked the same way,
else the empty list. -/
theorem getBestHoursForDay_spec (videos : List VideoRec)
    (hourly : List HourlyPerf) (d n : Nat) :
    getBestHoursForDay videos hourly d n = bestHoursSpec videos hourly d n := by
  simp only [getBestHoursForDay, bestHoursSpec]
  set rows := dayRows videos d with hrows
  set hours := firstDedup (rows.map fun v => v.postHour) with hhours
  set qual := hours.filter (fun h => decide (2 ≤ (hourGroup rows h).length)) with hqualdef
  have e1 : ((hours.map fun h =>
      (h, hourAvgEng rows h, (hourGroup rows h).length)).filter
        fun r => decide (2 ≤ r.2.2)) =
      qual.map fun h => (h, hourAvgEng rows h, (hourGroup rows h).length) := by
    rw [List.filter_map]
    rfl
  have e2 : sortByDesc (fun r : Nat × ℚ × Nat => r.2.1)
      (qual.map fun h => (h, hourAvgEng rows h, (hourGroup rows h).length)) =
      (sortByDesc (hourAvgEng rows) qual).map fun h =>
        (h, hourAvgEng rows h, (hourGroup rows h).length) :=
    sortByDesc_map _ _ _
  rw [e1, e2, ← List.map_take]
  set qrows := List.filter (fun a => decide (3 ≤ a.totalVideos)) hourly with hqrows
  have e3 : ∀ Y : List Nat,
      (Y.map fun h => (h, hourAvgEng rows h, (hourGroup rows h).length)).map
        (fun r => r.1) = Y := by
    intro Y
    induction Y with
    | nil => rfl
    | cons a l ih => simp only [List.map_cons, ih]
  have tier2eq :
      (if (List.take n (sortByDesc (fun a => a.avgEngagement) qrows)) ≠ [] then
        List.map (fun a => a.hour)
          (List.take n (sortByDesc (fun a => a.avgEngagement) qrows))
      else []) =
      (if qrows ≠ [] then
        List.take n (List.map (fun a => a.hour)
          (sortByDesc (fun a => a.avgEngagement) qrows))
      else []) := by
    by_cases hq2 : qrows = []
    · rw [hq2]
      simp [sortByDesc]
    · by_cases hn : n = 0
      · subst hn
        simp
      · have hs : sortByDesc (fun a => a.avgEngagement) qrows ≠ [] :=
          fun hc => hq2 (sortByDesc_eq_nil_iff.mp hc)
        have ht : List.take n (sortByDesc (fun a => a.avgEngagement) qrows) ≠ [] := by
          rw [Ne, List.take_eq_nil_iff]
          push_neg
          exact ⟨hn, hs⟩
        rw [if_pos ht, if_pos hq2, List.map_take]
  by_cases hq : qual = []
  · rw [hq]
    rw [show sortByDesc (hourAvgEng rows) ([] : List Nat) = [] from rfl]
    rw [List.take_nil, List.map_nil]
    rw [if_neg (show ¬(([] : List (Nat × ℚ × Nat)) ≠ []) from fun hc => hc rfl)]
    rw [if_neg (show ¬(([] : List Nat) ≠ []) from fun hc => hc rfl)]
    exact tier2eq
  · by_cases hn : n = 0
    · subst hn
      simp only [List.take_zero, List.map_nil, ne_eq, not_true_eq_false,
        if_false, if_pos hq]
    · have hX : sortByDesc (hourAvgEng rows) qual ≠ [] :=
        fun hc => hq (sortByDesc_eq_nil_iff.mp hc)
      have ht : List.take n (sortByDesc (hourAvgEng rows) qual) ≠ [] := by
        rw [Ne, List.take_eq_nil_iff]
        push_neg
        exact ⟨hn, hX⟩
      have hmapne : (List.map (fun h => (h, hourAvgEng rows h, (hourGroup rows h).length))
          (List.take n (sortByDesc (hourAvgEng rows) qual))) ≠ [] := by
        rw [Ne, List.map_eq_nil_iff]
        exact ht
      rw [if_pos hmapne, if_pos hq, e3]

end DarkMind
